import Mathlib

/-
  Shallow embedding of srcFacts.cpp: a single-pass streaming XML scanner that
  computes srcML source-code measures from standard input.

  The byte buffer is a List Char of fixed length (the capacity); cursor and
  cursorEnd are indices into it.  The input source is modelled as a list of
  chunks: each underlying read delivers at most one chunk (truncated to the
  free space in the buffer), and an exhausted source reports end of file by
  delivering no bytes, exactly as a blocking POSIX read does.  Machine ints
  of the C program (counters, depth, totalBytes) are modelled as Int; cursor
  positions (C++ iterators) as Nat.
-/

/-- Default byte returned when an index is outside the buffer list. -/
def nulChar : Char := Char.ofNat 0

/-- The double-quote character. -/
def dqChar : Char := Char.ofNat 34

/-- The single-quote character. -/
def sqChar : Char := Char.ofNat 39

/-- The newline character. -/
def nlChar : Char := Char.ofNat 10

/-- Byte of the buffer at index i (the C code dereferences iterators). -/
def byteAt (buf : List Char) (i : Nat) : Char := buf.getD i nulChar

/-- The bytes of the buffer in the index range [i, j). -/
def sliceBC (buf : List Char) (i j : Nat) : List Char := (buf.drop i).take (j - i)

/-- C isspace in the default locale: space, tab, newline, vtab, formfeed, cr. -/
def isSpaceC (c : Char) : Bool :=
  c == ' ' || c == Char.ofNat 9 || c == nlChar || c == Char.ofNat 11 ||
  c == Char.ofNat 12 || c == Char.ofNat 13

/-- The 128-bit name-character table, written exactly as the bitset literal of
    srcFacts.cpp; position p of the string is bit 127 - p. -/
def tagNameMaskBits : List Char :=
  ("00000111111111111111111111111110100001111111111111111111111111100000001111111111011000000000000000000000000000000000000000000000").toList

/-- Bit test on the name-character table (tagNameMask[c] in the C code). -/
def tagNameMask (c : Char) : Bool :=
  decide (c.toNat < 128) && (byteAt tagNameMaskBits (127 - c.toNat) == '1')

/-- Recursion kernel of findFrom, structural on the size j - i of the range
    so that the kernel can evaluate it. -/
def findFromK (buf : List Char) (p : Char → Bool) : Nat → Nat → Nat → Nat
  | 0, _, j => j
  | k + 1, i, j =>
    if i < j then
      if p (byteAt buf i) then i else findFromK buf p k (i + 1) j
    else j

/-- std::find / std::find_if_not over buffer indices: the least k in [i, j)
    whose byte satisfies p, and j when there is none. -/
def findFrom (buf : List Char) (i j : Nat) (p : Char → Bool) : Nat :=
  findFromK buf p (j - i) i j

/-- strncmp(cursor + i, pat, pat.length) == 0: the bytes at i, i+1, ... equal pat. -/
def matchAt (buf : List Char) (i : Nat) : List Char → Bool
  | [] => true
  | c :: cs => (byteAt buf i == c) && matchAt buf (i + 1) cs

/-- Recursion kernel of searchFrom, structural on the size of the range. -/
def searchFromK (buf : List Char) (pat : List Char) : Nat → Nat → Nat → Nat
  | 0, _, j => j
  | k + 1, i, j =>
    if i < j ∧ i + pat.length ≤ j then
      if matchAt buf i pat then i else searchFromK buf pat k (i + 1) j
    else j

/-- std::search over buffer indices: least position in [i, j) where the whole
    pattern occurs inside [i, j), and j when there is none. -/
def searchFrom (buf : List Char) (i j : Nat) (pat : List Char) : Nat :=
  searchFromK buf pat (j - i) i j

/- String literals that the scanner compares against. -/

def litXmlns : List Char := ("xmlns").toList
def litCDATAOpen : List Char := ("CDATA[").toList
def litEndComment : List Char := ("-->").toList
def litEndCDATA : List Char := ("]]>").toList
def litXMLDeclOpen : List Char := ("<?xml ").toList
def litEndPI : List Char := ("?>").toList
def litVersion : List Char := ("version").toList
def litEncoding : List Char := ("encoding").toList
def litStandalone : List Char := ("standalone").toList
def litUrl : List Char := ("url").toList
def litExpr : List Char := ("expr").toList
def litDeclTag : List Char := ("decl").toList
def litCommentTag : List Char := ("comment").toList
def litFunctionTag : List Char := ("function").toList
def litUnit : List Char := ("unit").toList
def litClassTag : List Char := ("class").toList

/- Diagnostic messages (dynamic parts such as the offending name are omitted;
   only identity of the message matters for the model). -/

def msgInputError : String := "parser error : File input error"
def msgIncompleteNamespace : String := "parser error : incomplete namespace"
def msgEmptyAttrName : String := "parser error : Empty attribute name"
def msgInvalidAttrName : String := "parser error : Invalid attribute name"
def msgIncompleteAttr : String := "parser error : incomplete attribute"
def msgMissingEq : String := "parser error : attribute missing ="
def msgMissingDelim : String := "parser error : attribute missing delimiter"
def msgUnterminatedComment : String := "parser error : Unterminated XML comment"
def msgUnterminatedCDATA : String := "parser error : Unterminated CDATA"
def msgIncompleteDecl : String := "parser error: Incomplete XML declaration"
def msgMissingVersion : String := "parser error: Missing space after before version in XML declaration"
def msgBadVersionDelimOpen : String := "parser error: Invalid start delimiter for version in XML declaration"
def msgBadVersionDelimEnd : String := "parser error: Invalid end delimiter for version in XML declaration"
def msgMissingVersionAttr : String := "parser error: Missing required first attribute version in XML declaration"
def msgIncompleteDeclAttr : String := "parser error: Incomplete attribute in XML declaration"
def msgBadDeclAttrDelim : String := "parser error: Invalid end delimiter for attribute in XML declaration"
def msgIncompleteDeclAttr2 : String := "parser error: Incomplete attribute value in XML declaration"
def msgInvalidDeclAttr : String := "parser error: Invalid attribute in XML declaration"
def msgUnterminatedPI : String := "parser error : Unterminated processing instruction"
def msgIncompleteEndTag : String := "parser error: Incomplete element end tag"
def msgInvalidEndTagName : String := "parser error : Invalid end tag name"
def msgUnterminatedEndTag : String := "parser error : Unterminated end tag"
def msgInvalidEndElem : String := "parser error: EndTag: invalid element name"
def msgIncompleteStartTag : String := "parser error: Incomplete element start tag"
def msgInvalidStartTagName : String := "parser error : Invalid start tag name"
def msgUnterminatedStartTag : String := "parser error : Unterminated start tag"
def msgInvalidStartElem : String := "parser error: StartTag: invalid element name"

/-- One blocking read: delivers at most one chunk of the source, truncated to
    the free space; an empty delivery signals end of file. -/
def readSource (space : Nat) : List (List Char) → List Char × List (List Char)
  | [] => ([], [])
  | c :: rest =>
    if c.length ≤ space then (c, rest) else (c.take space, (c.drop space) :: rest)

/-- Result of refillBuffer: return value, new cursor, new cursorEnd, new
    buffer contents, remaining source. -/
structure RefillResult where
  ret : Int
  cursor : Nat
  cursorEnd : Nat
  buffer : List Char
  src : List (List Char)
deriving DecidableEq

/-- refillBuffer of srcFacts.cpp: shift [cursor, cursorEnd) to the front of the
    buffer, read new bytes into the tail.  Returns the number of bytes read;
    0 on EOF, in which case both cursors are set to the end of the buffer and
    the shifted bytes are no longer inside [cursor, cursorEnd). -/
def refillBuffer (cursor cursorEnd : Nat) (buffer : List Char)
    (src : List (List Char)) : RefillResult :=
  let unprocessed := cursorEnd - cursor
  let window := sliceBC buffer cursor cursorEnd
  let space := buffer.length - unprocessed
  let rd := readSource space src
  if rd.1.length = 0 then
    { ret := 0, cursor := buffer.length, cursorEnd := buffer.length,
      buffer := window ++ buffer.drop unprocessed, src := rd.2 }
  else
    { ret := (rd.1.length : Int), cursor := 0, cursorEnd := unprocessed + rd.1.length,
      buffer := window ++ rd.1 ++ buffer.drop (unprocessed + rd.1.length), src := rd.2 }

/-- The mutable state of the main function of srcFacts.cpp. -/
structure ScanState where
  url : List Char
  textsize : Int
  loc : Int
  exprCount : Int
  functionCount : Int
  classCount : Int
  unitCount : Int
  declCount : Int
  commentCount : Int
  depth : Int
  totalBytes : Int
  inTag : Bool
  inXMLComment : Bool
  inCDATA : Bool
  inTagQName : List Char
  inTagPfx : List Char
  inTagLocalName : List Char
  isArchive : Bool
  buffer : List Char
  cursor : Nat
  cursorEnd : Nat
  src : List (List Char)
deriving DecidableEq

/-- Outcome of one iteration of the scan loop. -/
inductive StepResult where
  | cont : ScanState → StepResult
  | brk : ScanState → StepResult
  | error : String → StepResult
deriving DecidableEq

/-- The refill branch at the top of the scan loop (distance < 5). -/
def handleRefill (s : ScanState) : StepResult :=
  let r := refillBuffer s.cursor s.cursorEnd s.buffer s.src
  if r.ret < 0 then .error msgInputError
  else
    let s1 := { s with cursor := r.cursor, cursorEnd := r.cursorEnd,
                       buffer := r.buffer, src := r.src,
                       totalBytes := s.totalBytes + r.ret }
    if ¬s1.inXMLComment ∧ ¬s1.inCDATA ∧ s1.cursor = s1.cursorEnd then .brk s1
    else .cont s1

/-- The XML namespace branch (inTag and the next bytes are xmlns followed by
    a colon or an equals sign). -/
def handleNamespace (s : ScanState) : StepResult :=
  let cursor1 := s.cursor + 5
  let nameEnd := findFrom s.buffer cursor1 s.cursorEnd (fun c => c == '=')
  if nameEnd = s.cursorEnd then .error msgIncompleteNamespace
  else
    -- the prefix slice is computed in the C code and discarded untouched
    let cursor2 := nameEnd + 1
    let cursor3 := findFrom s.buffer cursor2 s.cursorEnd (fun c => !(isSpaceC c))
    if cursor3 = s.cursorEnd then .error msgIncompleteNamespace
    else
      let delim := byteAt s.buffer cursor3
      if delim ≠ dqChar ∧ delim ≠ sqChar then .error msgIncompleteNamespace
      else
        let cursor4 := cursor3 + 1
        let valueEnd := findFrom s.buffer cursor4 s.cursorEnd (fun c => c == delim)
        if valueEnd = s.cursorEnd then .error msgIncompleteNamespace
        else
          let cursor5 := valueEnd + 1
          let cursor6 := findFrom s.buffer cursor5 s.cursorEnd (fun c => !(isSpaceC c))
          if byteAt s.buffer cursor6 = '>' then
            .cont { s with cursor := cursor6 + 1, inTag := false, depth := s.depth + 1 }
          else if byteAt s.buffer cursor6 = '/' ∧ byteAt s.buffer (cursor6 + 1) = '>' then
            .cont { s with cursor := cursor6 + 2, inTag := false }
          else
            .cont { s with cursor := cursor6 }

/-- First half of the attribute branch: scan the attribute name (with the
    optional prefix split), the equals sign and the quoted value.  Returns
    the local name, the value slice, and the index of the closing quote. -/
def attrParse (s : ScanState) : Except String (List Char × List Char × Nat) :=
  let nameEnd := findFrom s.buffer s.cursor s.cursorEnd (fun c => !(tagNameMask c))
  if nameEnd = s.cursorEnd then .error msgEmptyAttrName
  else
    let qName := sliceBC s.buffer s.cursor nameEnd
    let colonIdx := qName.findIdx (fun c => c == ':')
    let found := colonIdx < qName.length
    if found ∧ colonIdx = 0 then .error msgInvalidAttrName
    else
      let colonPosition := if found then colonIdx else 0
      let colonPosition2 := if colonPosition ≠ 0 then colonPosition + 1 else colonPosition
      let localName := qName.drop colonPosition2
      let cursor2 := if isSpaceC (byteAt s.buffer nameEnd) then
          findFrom s.buffer nameEnd s.cursorEnd (fun c => !(isSpaceC c))
        else nameEnd
      if cursor2 = s.cursorEnd then .error msgIncompleteAttr
      else if byteAt s.buffer cursor2 ≠ '=' then .error msgMissingEq
      else
        let cursor3 := cursor2 + 1
        let cursor4 := if isSpaceC (byteAt s.buffer cursor3) then
            findFrom s.buffer cursor3 s.cursorEnd (fun c => !(isSpaceC c))
          else cursor3
        let delim := byteAt s.buffer cursor4
        if delim ≠ dqChar ∧ delim ≠ sqChar then .error msgMissingDelim
        else
          let cursor5 := cursor4 + 1
          let valueEnd := findFrom s.buffer cursor5 s.cursorEnd (fun c => c == delim)
          if valueEnd = s.cursorEnd then .error msgMissingDelim
          else .ok (localName, sliceBC s.buffer cursor5 valueEnd, valueEnd)

/-- The attribute branch (inTag, not a namespace declaration): parse one
    attribute, capture the url, handle the tag terminator. -/
def handleAttribute (s : ScanState) : StepResult :=
  match attrParse s with
  | .error m => .error m
  | .ok (localName, value, valueEnd) =>
    let url1 := if localName = litUrl then value else s.url
    let cursor6 := valueEnd + 1
    let cursor7 := if isSpaceC (byteAt s.buffer cursor6) then
        findFrom s.buffer (cursor6 + 1) s.cursorEnd (fun c => !(isSpaceC c))
      else cursor6
    if byteAt s.buffer cursor7 = '>' then
      .cont { s with url := url1, cursor := cursor7 + 1,
                     inTag := false, depth := s.depth + 1 }
    else if byteAt s.buffer cursor7 = '/' ∧ byteAt s.buffer (cursor7 + 1) = '>' then
      .cont { s with url := url1, cursor := cursor7 + 2, inTag := false }
    else
      .cont { s with url := url1, cursor := cursor7 }

/-- The XML comment branch. -/
def handleComment (s : ScanState) : StepResult :=
  if s.cursor = s.cursorEnd then .error msgUnterminatedComment
  else
    let cursor1 := if ¬s.inXMLComment then s.cursor + 4 else s.cursor
    let tagEnd := searchFrom s.buffer cursor1 s.cursorEnd litEndComment
    let inC : Bool := decide (tagEnd = s.cursorEnd)
    let cursor2 := if inC then tagEnd else tagEnd + 3
    .cont { s with inXMLComment := inC, cursor := cursor2 }

/-- The CDATA branch. -/
def handleCDATA (s : ScanState) : StepResult :=
  if s.cursor = s.cursorEnd then .error msgUnterminatedCDATA
  else
    let cursor1 := if ¬s.inCDATA then s.cursor + 9 else s.cursor
    let tagEnd := searchFrom s.buffer cursor1 s.cursorEnd litEndCDATA
    let inC : Bool := decide (tagEnd = s.cursorEnd)
    let characters := sliceBC s.buffer cursor1 tagEnd
    let cursor2 := if inC then tagEnd else tagEnd + 3
    .cont { s with inCDATA := inC,
                   textsize := s.textsize + (characters.length : Int),
                   loc := s.loc + ((characters.count nlChar : Nat) : Int),
                   cursor := cursor2 }

/-- Locating the closing angle bracket of the XML declaration, refilling the
    buffer once if it is not in the current window. -/
def declFindEnd (s : ScanState) : Except String (ScanState × Nat) :=
  let tagEnd := findFrom s.buffer s.cursor s.cursorEnd (fun c => c == '>')
  if tagEnd = s.cursorEnd then
    let r := refillBuffer s.cursor s.cursorEnd s.buffer s.src
    if r.ret < 0 then .error msgInputError
    else
      let s1 := { s with cursor := r.cursor, cursorEnd := r.cursorEnd,
                         buffer := r.buffer, src := r.src,
                         totalBytes := s.totalBytes + r.ret }
      let tagEnd2 := findFrom s1.buffer s1.cursor s1.cursorEnd (fun c => c == '>')
      if tagEnd2 = s1.cursorEnd then .error msgIncompleteDecl else .ok (s1, tagEnd2)
  else .ok (s, tagEnd)

/-- First optional attribute (encoding or standalone) of the XML declaration.
    Returns the captured values and the cursor after the attribute. -/
def declOpt1 (s : ScanState) (tagEnd cursor : Nat) :
    Except String (Option (List Char) × Option (List Char) × Nat) :=
  if cursor ≠ tagEnd - 1 then
    let nameEnd := findFrom s.buffer cursor tagEnd (fun c => c == '=')
    if nameEnd = tagEnd then .error msgIncompleteDeclAttr
    else
      let attr2 := sliceBC s.buffer cursor nameEnd
      let cursor1 := nameEnd + 1
      let delim2 := byteAt s.buffer cursor1
      if delim2 ≠ dqChar ∧ delim2 ≠ sqChar then .error msgBadDeclAttrDelim
      else
        let cursor2 := cursor1 + 1
        let valueEnd := findFrom s.buffer cursor2 tagEnd (fun c => c == delim2)
        if valueEnd = tagEnd then .error msgIncompleteDeclAttr2
        else
          let value := sliceBC s.buffer cursor2 valueEnd
          if attr2 = litEncoding then
            .ok (some value, none,
                 findFrom s.buffer (valueEnd + 1) tagEnd (fun c => !(isSpaceC c)))
          else if attr2 = litStandalone then
            .ok (none, some value,
                 findFrom s.buffer (valueEnd + 1) tagEnd (fun c => !(isSpaceC c)))
          else .error msgInvalidDeclAttr
  else .ok (none, none, cursor)

/-- Second optional attribute (standalone only, at most once) of the XML
    declaration.  Returns the cursor after the attribute. -/
def declOpt2 (s : ScanState) (tagEnd cursor : Nat) (standalone : Option (List Char)) :
    Except String Nat :=
  if cursor ≠ tagEnd - 2 + 1 then
    let nameEnd := findFrom s.buffer cursor tagEnd (fun c => c == '=')
    if nameEnd = tagEnd then .error msgIncompleteDeclAttr
    else
      let attr2 := sliceBC s.buffer cursor nameEnd
      let cursor1 := nameEnd + 1
      let delim2 := byteAt s.buffer cursor1
      if delim2 ≠ dqChar ∧ delim2 ≠ sqChar then .error msgBadDeclAttrDelim
      else
        let cursor2 := cursor1 + 1
        let valueEnd := findFrom s.buffer cursor2 tagEnd (fun c => c == delim2)
        if valueEnd = tagEnd then .error msgIncompleteDeclAttr2
        else
          if standalone = none ∧ attr2 = litStandalone then
            .ok (findFrom s.buffer (valueEnd + 1) tagEnd (fun c => !(isSpaceC c)))
          else .error msgInvalidDeclAttr
  else .ok cursor

/-- The XML declaration branch. -/
def handleXMLDecl (s0 : ScanState) : StepResult :=
  match declFindEnd s0 with
  | .error m => .error m
  | .ok (s, tagEnd) =>
    let cursor1 := s.cursor + 5
    let cursor2 := findFrom s.buffer cursor1 tagEnd (fun c => !(isSpaceC c))
    if cursor2 = tagEnd then .error msgMissingVersion
    else
      let nameEnd := findFrom s.buffer cursor2 tagEnd (fun c => c == '=')
      let attr := sliceBC s.buffer cursor2 nameEnd
      let cursor3 := nameEnd + 1
      let delim := byteAt s.buffer cursor3
      if delim ≠ dqChar ∧ delim ≠ sqChar then .error msgBadVersionDelimOpen
      else
        let cursor4 := cursor3 + 1
        let valueEnd := findFrom s.buffer cursor4 tagEnd (fun c => c == delim)
        if valueEnd = tagEnd then .error msgBadVersionDelimEnd
        else if attr ≠ litVersion then .error msgMissingVersionAttr
        else
          let cursor5 := valueEnd + 1
          let cursor6 := findFrom s.buffer cursor5 tagEnd (fun c => !(isSpaceC c))
          match declOpt1 s tagEnd cursor6 with
          | .error m => .error m
          | .ok (_, standalone, cursor7) =>
            match declOpt2 s tagEnd cursor7 standalone with
            | .error m => .error m
            | .ok cursor8 =>
              let cursor9 := cursor8 + 2
              let cursor10 := findFrom s.buffer cursor9 s.cursorEnd (fun c => !(isSpaceC c))
              .cont { s with cursor := cursor10 }

/-- Locating the closing of a processing instruction, refilling once. -/
def piFindEnd (s : ScanState) : Except String (ScanState × Nat) :=
  let tagEnd := searchFrom s.buffer s.cursor s.cursorEnd litEndPI
  if tagEnd = s.cursorEnd then
    let r := refillBuffer s.cursor s.cursorEnd s.buffer s.src
    if r.ret < 0 then .error msgInputError
    else
      let s1 := { s with cursor := r.cursor, cursorEnd := r.cursorEnd,
                         buffer := r.buffer, src := r.src,
                         totalBytes := s.totalBytes + r.ret }
      let tagEnd2 := searchFrom s1.buffer s1.cursor s1.cursorEnd litEndPI
      if tagEnd2 = s1.cursorEnd then .error msgIncompleteDecl else .ok (s1, tagEnd2)
  else .ok (s, tagEnd)

/-- The processing-instruction branch. -/
def handlePI (s0 : ScanState) : StepResult :=
  match piFindEnd s0 with
  | .error m => .error m
  | .ok (s, tagEnd) =>
    let cursor1 := s.cursor + 2
    let nameEnd := findFrom s.buffer cursor1 tagEnd (fun c => !(tagNameMask c))
    if nameEnd = tagEnd then .error msgUnterminatedPI
    else
      -- the target and data slices are computed in the C code and discarded
      .cont { s with cursor := tagEnd + 2 }

/-- The forced refill of the start and end tag branches: when fewer than limit
    bytes remain and the closing angle bracket is not in the window, refill
    once and require it to appear. -/
def tagFindEnd (s : ScanState) (limit : Nat) (msg : String) :
    Except String ScanState :=
  if s.cursorEnd - s.cursor < limit then
    let tagEnd := findFrom s.buffer s.cursor s.cursorEnd (fun c => c == '>')
    if tagEnd = s.cursorEnd then
      let r := refillBuffer s.cursor s.cursorEnd s.buffer s.src
      if r.ret < 0 then .error msgInputError
      else
        let s1 := { s with cursor := r.cursor, cursorEnd := r.cursorEnd,
                           buffer := r.buffer, src := r.src,
                           totalBytes := s.totalBytes + r.ret }
        let tagEnd2 := findFrom s1.buffer s1.cursor s1.cursorEnd (fun c => c == '>')
        if tagEnd2 = s1.cursorEnd then .error msg else .ok s1
    else .ok s
  else .ok s

/-- The shared name scan of the start and end tag branches: reject a leading
    colon, scan name characters, split an embedded prefix at a colon, reject
    an empty name.  Returns the prefix length, the index just past the name,
    and the qualified name. -/
def tagNameParse (s : ScanState) (cursor1 : Nat)
    (msgColon msgUnterm msgEmpty : String) :
    Except String (Nat × Nat × List Char) :=
  if byteAt s.buffer cursor1 = ':' then .error msgColon
  else
    let nameEnd := findFrom s.buffer cursor1 s.cursorEnd (fun c => !(tagNameMask c))
    if nameEnd = s.cursorEnd then .error msgUnterm
    else
      let colonPosition := if byteAt s.buffer nameEnd = ':' then nameEnd - cursor1 else 0
      let nameEnd2 := if byteAt s.buffer nameEnd = ':' then
          findFrom s.buffer (nameEnd + 1) s.cursorEnd (fun c => !(tagNameMask c))
        else nameEnd
      let qName := sliceBC s.buffer cursor1 nameEnd2
      if qName = [] then .error msgEmpty
      else .ok (colonPosition, nameEnd2, qName)

/-- The end tag branch. -/
def handleEndTag (s0 : ScanState) : StepResult :=
  match tagFindEnd s0 100 msgIncompleteEndTag with
  | .error m => .error m
  | .ok s =>
    match tagNameParse s (s.cursor + 2) msgInvalidEndTagName msgUnterminatedEndTag
        msgInvalidEndElem with
    | .error m => .error m
    | .ok (_, nameEnd2, _) =>
      .cont { s with cursor := nameEnd2 + 1, depth := s.depth - 1 }

/-- The counter update of the start tag branch, keyed on the local name; a
    unit start tag seen at depth 1 also sets isArchive. -/
def countLocalName (s : ScanState) (localName : List Char) : ScanState :=
  if localName = litExpr then { s with exprCount := s.exprCount + 1 }
  else if localName = litDeclTag then { s with declCount := s.declCount + 1 }
  else if localName = litCommentTag then { s with commentCount := s.commentCount + 1 }
  else if localName = litFunctionTag then { s with functionCount := s.functionCount + 1 }
  else if localName = litUnit then
    { s with unitCount := s.unitCount + 1,
             isArchive := s.isArchive || decide (s.depth = 1) }
  else if localName = litClassTag then { s with classCount := s.classCount + 1 }
  else s

/-- The start tag branch. -/
def handleStartTag (s0 : ScanState) : StepResult :=
  match tagFindEnd s0 200 msgIncompleteStartTag with
  | .error m => .error m
  | .ok s =>
    match tagNameParse s (s.cursor + 1) msgInvalidStartTagName msgUnterminatedStartTag
        msgInvalidStartElem with
    | .error m => .error m
    | .ok (colonPosition, nameEnd2, qName) =>
      let colonPosition2 := if colonPosition ≠ 0 then colonPosition + 1 else 0
      let localName := qName.drop colonPosition2
      let s1 := countLocalName s localName
      let cursor3 := if byteAt s1.buffer nameEnd2 ≠ '>' then
          findFrom s1.buffer nameEnd2 s1.cursorEnd (fun c => !(isSpaceC c))
        else nameEnd2
      if byteAt s1.buffer cursor3 = '>' then
        .cont { s1 with cursor := cursor3 + 1, depth := s1.depth + 1 }
      else if byteAt s1.buffer cursor3 = '/' ∧ byteAt s1.buffer (cursor3 + 1) = '>' then
        .cont { s1 with cursor := cursor3 + 2 }
      else
        .cont { s1 with cursor := cursor3,
                        inTagQName := qName,
                        inTagPfx := qName.take colonPosition,
                        inTagLocalName := qName.drop (colonPosition + 1),
                        inTag := true }

/-- The out-of-element branch (depth == 0): skip whitespace only. -/
def handleDepthZero (s : ScanState) : StepResult :=
  .cont { s with cursor := findFrom s.buffer s.cursor s.cursorEnd (fun c => !(isSpaceC c)) }

/-- Number of bytes the entity-reference branch consumes: 4 for the
    references lt and gt, 5 for amp, and exactly 1 (the ampersand alone)
    for anything else. -/
def entityAdvance (s : ScanState) : Nat :=
  if byteAt s.buffer (s.cursor + 1) = 'l' ∧ byteAt s.buffer (s.cursor + 2) = 't' ∧
     byteAt s.buffer (s.cursor + 3) = ';' then 4
  else if byteAt s.buffer (s.cursor + 1) = 'g' ∧ byteAt s.buffer (s.cursor + 2) = 't' ∧
     byteAt s.buffer (s.cursor + 3) = ';' then 4
  else if byteAt s.buffer (s.cursor + 1) = 'a' ∧ byteAt s.buffer (s.cursor + 2) = 'm' ∧
     byteAt s.buffer (s.cursor + 3) = 'p' ∧ byteAt s.buffer (s.cursor + 4) = ';' then 5
  else 1

/-- The entity-reference branch. -/
def handleEntity (s : ScanState) : StepResult :=
  .cont { s with cursor := s.cursor + entityAdvance s, textsize := s.textsize + 1 }

/-- The character-data branch. -/
def handleCharacters (s : ScanState) : StepResult :=
  let tagEnd := findFrom s.buffer s.cursor s.cursorEnd (fun c => c == '<' || c == '&')
  let characters := sliceBC s.buffer s.cursor tagEnd
  .cont { s with loc := s.loc + ((characters.count nlChar : Nat) : Int),
                 textsize := s.textsize + (characters.length : Int),
                 cursor := s.cursor + characters.length }

/-- One iteration of the scan loop of main, with the branch dispatch in the
    order of the C source. -/
def step (s : ScanState) : StepResult :=
  if s.cursorEnd - s.cursor < 5 then handleRefill s
  else if s.inTag ∧ matchAt s.buffer s.cursor litXmlns ∧
      (byteAt s.buffer (s.cursor + 5) = ':' ∨ byteAt s.buffer (s.cursor + 5) = '=') then
    handleNamespace s
  else if s.inTag then handleAttribute s
  else if s.inXMLComment ∨ (byteAt s.buffer (s.cursor + 1) = '!' ∧
      byteAt s.buffer s.cursor = '<' ∧ byteAt s.buffer (s.cursor + 2) = '-' ∧
      byteAt s.buffer (s.cursor + 3) = '-') then
    handleComment s
  else if s.inCDATA ∨ (byteAt s.buffer (s.cursor + 1) = '!' ∧
      byteAt s.buffer s.cursor = '<' ∧ byteAt s.buffer (s.cursor + 2) = '[' ∧
      matchAt s.buffer (s.cursor + 3) litCDATAOpen) then
    handleCDATA s
  else if byteAt s.buffer (s.cursor + 1) = '?' ∧ byteAt s.buffer s.cursor = '<' ∧
      matchAt s.buffer s.cursor litXMLDeclOpen then
    handleXMLDecl s
  else if byteAt s.buffer (s.cursor + 1) = '?' ∧ byteAt s.buffer s.cursor = '<' then
    handlePI s
  else if byteAt s.buffer (s.cursor + 1) = '/' ∧ byteAt s.buffer s.cursor = '<' then
    handleEndTag s
  else if byteAt s.buffer s.cursor = '<' then handleStartTag s
  else if s.depth = 0 then handleDepthZero s
  else if byteAt s.buffer s.cursor = '&' then handleEntity s
  else handleCharacters s

/-- Outcome of a whole run of the scan loop. -/
inductive RunOut where
  | fin : ScanState → RunOut
  | fail : String → RunOut
deriving DecidableEq

/-- The scan loop, with fuel; none when the fuel runs out before the loop
    finishes (the C loop can spin forever, e.g. at EOF inside a comment). -/
def runLoop : Nat → ScanState → Option RunOut
  | 0, _ => none
  | Nat.succ n, s =>
    match step s with
    | .cont s1 => runLoop n s1
    | .brk s1 => some (.fin s1)
    | .error m => some (.fail m)

/-- Initial state of main: a buffer of capacity space characters with both
    cursors at its end, all counters zero. -/
def initState (capacity : Nat) (src : List (List Char)) : ScanState :=
  { url := [], textsize := 0, loc := 0, exprCount := 0, functionCount := 0,
    classCount := 0, unitCount := 0, declCount := 0, commentCount := 0,
    depth := 0, totalBytes := 0, inTag := false, inXMLComment := false,
    inCDATA := false, inTagQName := [], inTagPfx := [], inTagLocalName := [],
    isArchive := false, buffer := List.replicate capacity ' ', cursor := capacity,
    cursorEnd := capacity, src := src }

/-- Buffer capacity of srcFacts.cpp (16 * 16 * 4096). -/
def BUFFER_SIZE : Nat := 16 * 16 * 4096

/-- The values printed in the final report. -/
structure Report where
  totalBytes : Int
  textsize : Int
  files : Int
  loc : Int
  classCount : Int
  functionCount : Int
  declCount : Int
  exprCount : Int
  commentCount : Int
  url : List Char
deriving DecidableEq

/-- The report computed from the final state (files is unitCount, less one
    when isArchive). -/
def report (s : ScanState) : Report :=
  { totalBytes := s.totalBytes, textsize := s.textsize,
    files := s.unitCount - (if s.isArchive then 1 else 0),
    loc := s.loc, classCount := s.classCount, functionCount := s.functionCount,
    declCount := s.declCount, exprCount := s.exprCount,
    commentCount := s.commentCount, url := s.url }

/-- Result of the whole program: the report on success (exit 0), the
    diagnostic on parser error (exit 1). -/
inductive ProgResult where
  | ok : Report → ProgResult
  | err : String → ProgResult
deriving DecidableEq

/-- Exit code of the process. -/
def exitCode : ProgResult → Int
  | .ok _ => 0
  | .err _ => 1

/-- Run the scan loop from the initial state. -/
def runScan (capacity fuel : Nat) (src : List (List Char)) : Option RunOut :=
  runLoop fuel (initState capacity src)

/-- The whole program on a given source, with a given buffer capacity. -/
def srcFactsMain (capacity fuel : Nat) (src : List (List Char)) :
    Option ProgResult :=
  match runScan capacity fuel src with
  | none => none
  | some (.fin s) => some (.ok (report s))
  | some (.fail m) => some (.err m)

/-- The state after an iteration that does not exit with a parser error. -/
def stepState : StepResult → Option ScanState
  | .cont s => some s
  | .brk s => some s
  | .error _ => none

/-- The window [cursor, cursorEnd) after a refill. -/
def windowOf (r : RefillResult) : List Char := sliceBC r.buffer r.cursor r.cursorEnd

/-- The bytes the underlying read delivers during a given refill call. -/
def refillData (cursor cursorEnd : Nat) (buffer : List Char)
    (src : List (List Char)) : List Char :=
  (readSource (buffer.length - (cursorEnd - cursor)) src).1

/- Projections of run results, used to state properties of whole runs. -/

def resultTextsize : Option ProgResult → Option Int
  | some (.ok r) => some r.textsize
  | _ => none

def resultTotalBytes : Option ProgResult → Option Int
  | some (.ok r) => some r.totalBytes
  | _ => none

def resultFiles : Option ProgResult → Option Int
  | some (.ok r) => some r.files
  | _ => none

def resultUrl : Option ProgResult → Option (List Char)
  | some (.ok r) => some r.url
  | _ => none

def resultExit : Option ProgResult → Option Int
  | some p => some (exitCode p)
  | none => none

def finalDepth : Option RunOut → Option Int
  | some (.fin s) => some s.depth
  | _ => none

def finalIsArchive : Option RunOut → Option Bool
  | some (.fin s) => some s.isArchive
  | _ => none

def finalUnitCount : Option RunOut → Option Int
  | some (.fin s) => some s.unitCount
  | _ => none

def finalInTagQName : Option RunOut → Option (List Char)
  | some (.fin s) => some s.inTagQName
  | _ => none

def finalInTagLocalName : Option RunOut → Option (List Char)
  | some (.fin s) => some s.inTagLocalName
  | _ => none

/- Concrete inputs used in the theorems below. -/

/-- A document with two XML comments and one character of text after each. -/
def inputSplitComment : List Char := ("<unit><!--x-->a<!--y-->b</unit>").toList

/-- The 43-byte document of the end-to-end scenario of the spec. -/
def inputDeclUnitExpr : List Char :=
  ("<?xml version=\"1.0\"?>\n<unit><expr/></unit>\n").toList

/-- An unmatched end tag followed by two padding bytes. -/
def inputUnmatchedEnd : List Char := ("</abc>xy").toList

/-- A root element that is not a unit, containing one self-closing unit. -/
def inputSelfClosingUnit : List Char := ("<a><unit/></a>     ").toList

/-- A start tag with two attributes whose local name is url. -/
def inputTwoUrls : List Char := ("<u url=\"a\" url=\"b\"/>     ").toList

/-- An unprefixed start tag with an attribute, so that the tag identity is
    recorded while the attribute list is parsed. -/
def inputNoPrefixTag : List Char := ("<unit foo=\"1\"></unit>     ").toList

/-- A scanner state inside a tag header whose window is exactly the five
    bytes xmlns, with an equals sign as the stale byte at cursorEnd. -/
def probeStateEq : ScanState :=
  { initState 8 [] with
    inTag := true, depth := 1,
    buffer := ("xmlns=aa").toList, cursor := 0, cursorEnd := 5 }

/-- The same state with the stale byte at cursorEnd replaced; the two states
    agree on every byte of the window [cursor, cursorEnd). -/
def probeStateZ : ScanState := { probeStateEq with buffer := ("xmlnsZaa").toList }

/-- The amended refill contract: the call returns 0 exactly when the read
    delivers no bytes (end of file), and then cursor equals cursorEnd and the
    window is empty (previously unconsumed bytes are discarded); when the
    read delivers bytes, the window afterwards is exactly the previously
    unconsumed bytes followed by the newly read bytes. -/
def RefillWindowSpec (cursor cursorEnd : Nat) (buffer : List Char)
    (src : List (List Char)) : Prop :=
  ((refillBuffer cursor cursorEnd buffer src).ret = 0 ↔
    refillData cursor cursorEnd buffer src = []) ∧
  (refillData cursor cursorEnd buffer src = [] →
    (refillBuffer cursor cursorEnd buffer src).cursor =
      (refillBuffer cursor cursorEnd buffer src).cursorEnd ∧
    windowOf (refillBuffer cursor cursorEnd buffer src) = []) ∧
  (refillData cursor cursorEnd buffer src ≠ [] →
    windowOf (refillBuffer cursor cursorEnd buffer src) =
      sliceBC buffer cursor cursorEnd ++ refillData cursor cursorEnd buffer src)

/-- A concrete scanner state dispatching to the entity-reference branch. -/
def entityProbe : ScanState :=
  { initState 8 [] with
    depth := 1, buffer := ("&lt;abcd").toList, cursor := 0, cursorEnd := 8 }

/-- The all-zero report with a given byte total. -/
def zeroReport (n : Int) : Report :=
  { totalBytes := n, textsize := 0, files := 0, loc := 0, classCount := 0,
    functionCount := 0, declCount := 0, exprCount := 0, commentCount := 0,
    url := [] }

/-- A state at depth 0 whose window is all whitespace. -/
def wsProbe : ScanState := { initState 8 [] with cursor := 0, cursorEnd := 8 }

/-- The state after one iteration on wsProbe: the whitespace is skipped. -/
def wsProbeAfter : ScanState := { wsProbe with cursor := 8 }

/-- A state inside a tag header whose window holds one url attribute. -/
def urlProbe : ScanState :=
  { initState 12 [] with
    inTag := true, url := ("a").toList,
    buffer := ("url=\"b\">cccc").toList, cursor := 0, cursorEnd := 8 }

/-- The state after the attribute branch parses the url attribute. -/
def urlProbeAfter : ScanState :=
  { urlProbe with
    url := ("b").toList, cursor := 8, inTag := false, depth := urlProbe.depth + 1 }

/-- C1: for the document inputSplitComment, delivering all 31 bytes in one
    read yields textsize 2, while delivering the same bytes in two reads that
    split the first comment terminator between its dashes and its closing
    angle bracket yields textsize 1: the scan result depends on how the input
    is chunked across refills, so the boundary-independence law fails.  Both
    runs exit 0. -/
theorem comment_split_boundary_dependence :
    inputSplitComment.take 13 ++ inputSplitComment.drop 13 = inputSplitComment ∧
    resultTextsize (srcFactsMain 64 32 [inputSplitComment]) = some 2 ∧
    resultTextsize (srcFactsMain 64 32
      [inputSplitComment.take 13, inputSplitComment.drop 13]) = some 1 ∧
    resultExit (srcFactsMain 64 32 [inputSplitComment]) = some 0 ∧
    resultExit (srcFactsMain 64 32
      [inputSplitComment.take 13, inputSplitComment.drop 13]) = some 0 := by
  decide

/-- C3: two scanner states that agree on every byte of the window
    [cursor, cursorEnd) (and on every other field except the byte at index
    cursorEnd = 5) are classified differently: the xmlns test of the scan
    loop reads cursor[5], the byte at cursorEnd, which lies outside the
    window.  So classification is not a function of the window alone. -/
theorem classifier_reads_byte_at_cursorEnd :
    probeStateEq.buffer.take 5 = probeStateZ.buffer.take 5 ∧
    probeStateEq.buffer.drop 6 = probeStateZ.buffer.drop 6 ∧
    probeStateEq.cursor = 0 ∧ probeStateEq.cursorEnd = 5 ∧
    probeStateZ.cursor = 0 ∧ probeStateZ.cursorEnd = 5 ∧
    byteAt probeStateEq.buffer 5 ≠ byteAt probeStateZ.buffer 5 ∧
    step probeStateEq = .error msgIncompleteNamespace ∧
    step probeStateZ = .error msgEmptyAttrName ∧
    msgIncompleteNamespace ≠ msgEmptyAttrName := by
  decide

/-- C4 counterexample: on the input consisting of one unmatched end tag the
    scan finishes with depth = -1 and exit code 0, refuting the claim that
    depth is at least 0 at every iteration boundary of every input. -/
theorem depth_goes_negative :
    finalDepth (runScan 64 32 [inputUnmatchedEnd]) = some (-1) ∧
    resultExit (srcFactsMain 64 32 [inputUnmatchedEnd]) = some 0 := by
  decide

/-- C5 counterexample: for a document whose outermost element is not a unit
    and whose only nested unit is self-closing, the scan still sets isArchive
    and reports files = unitCount - 1 = 0, refuting the claimed
    characterisation of isArchive. -/
theorem archive_set_for_self_closing_nested_unit :
    finalIsArchive (runScan 64 32 [inputSelfClosingUnit]) = some true ∧
    finalUnitCount (runScan 64 32 [inputSelfClosingUnit]) = some 1 ∧
    resultFiles (srcFactsMain 64 32 [inputSelfClosingUnit]) = some 0 ∧
    resultExit (srcFactsMain 64 32 [inputSelfClosingUnit]) = some 0 := by
  decide

/-- C6 counterexample: on the scenario input the program reads 43 bytes, so
    the srcML bytes row carries 43, not the claimed 37. -/
theorem srcml_bytes_is_43_not_37 :
    inputDeclUnitExpr.length = 43 ∧
    resultTotalBytes (srcFactsMain 64 32 [inputDeclUnitExpr]) = some 43 ∧
    resultTotalBytes (srcFactsMain 64 32 [inputDeclUnitExpr]) ≠ some 37 := by
  decide

/-- C6 amended: on the scenario input the program exits 0 and the report
    carries srcML bytes 43, Characters 0, Files 1, LOC 0, Classes 0,
    Functions 0, Declarations 0, Expressions 1, Comments 0. -/
theorem report_of_declaration_unit_expr :
    srcFactsMain 64 32 [inputDeclUnitExpr] =
      some (.ok { totalBytes := 43, textsize := 0, files := 1, loc := 0,
                  classCount := 0, functionCount := 0, declCount := 0,
                  exprCount := 1, commentCount := 0, url := [] }) := by
  decide

/-- C8 counterexample: with two url attributes on the same tag the reported
    document URL is the value of the last one, not of the first one. -/
theorem url_is_last_not_first :
    resultUrl (srcFactsMain 64 32 [inputTwoUrls]) = some (("b").toList) ∧
    resultUrl (srcFactsMain 64 32 [inputTwoUrls]) ≠ some (("a").toList) := by
  decide

/-- C9: after scanning a document whose root start tag is the unprefixed name
    unit followed by an attribute, the recorded inTagQName is unit but the
    recorded inTagLocalName is nit: the handler derives the local-name view
    from offset prefix-length + 1 even when there is no colon, dropping the
    first byte of the name. -/
theorem inTagLocalName_drops_first_byte :
    finalInTagQName (runScan 64 32 [inputNoPrefixTag]) = some (("unit").toList) ∧
    finalInTagLocalName (runScan 64 32 [inputNoPrefixTag]) = some (("nit").toList) ∧
    (("nit").toList : List Char) ≠ ("unit").toList := by
  decide

/-- C2 counterexample: a refill call with two unconsumed bytes and a source
    at end of file returns 0 and leaves an empty window: the two previously
    unconsumed bytes are discarded instead of remaining in the window
    followed by the (zero) newly read bytes. -/
theorem refill_discards_unconsumed_on_eof :
    (refillBuffer 1 3 (("abcd").toList) []).ret = 0 ∧
    windowOf (refillBuffer 1 3 (("abcd").toList) []) = [] ∧
    sliceBC (("abcd").toList) 1 3 ++ refillData 1 3 (("abcd").toList) [] = [ 'b', 'c' ] ∧
    windowOf (refillBuffer 1 3 (("abcd").toList) []) ≠
      sliceBC (("abcd").toList) 1 3 ++ refillData 1 3 (("abcd").toList) [] := by
  decide

/-- C2 amended: every refill call with cursor and cursorEnd inside the buffer
    satisfies the amended refill contract. -/
theorem refillBuffer_window_spec (cursor cursorEnd : Nat) (buffer : List Char)
    (src : List (List Char)) (h1 : cursor ≤ cursorEnd)
    (h2 : cursorEnd ≤ buffer.length) :
    RefillWindowSpec cursor cursorEnd buffer src := by
  have hWlen : (sliceBC buffer cursor cursorEnd).length = cursorEnd - cursor := by
    simp only [sliceBC, List.length_take, List.length_drop]
    omega
  have sliceZero : ∀ (l : List Char) (j : Nat), sliceBC l 0 j = l.take j := by
    intro l j
    simp [sliceBC]
  simp only [RefillWindowSpec, refillData, windowOf, refillBuffer]
  by_cases hd : (readSource (buffer.length - (cursorEnd - cursor)) src).1.length = 0
  · have h0 : (readSource (buffer.length - (cursorEnd - cursor)) src).1 = [] :=
      List.length_eq_zero.mp hd
    simp [if_pos hd, h0, sliceBC]
  · have h0 : (readSource (buffer.length - (cursorEnd - cursor)) src).1 ≠ [] :=
      fun h => hd (by simp [h])
    simp only [if_neg hd]
    refine ⟨⟨fun h => absurd (Int.natCast_eq_zero.mp h) hd, fun h => absurd h h0⟩,
            fun h => absurd h h0, fun _ => ?_⟩
    have hlen2 : cursorEnd - cursor +
        (readSource (buffer.length - (cursorEnd - cursor)) src).1.length =
        ((sliceBC buffer cursor cursorEnd) ++
          (readSource (buffer.length - (cursorEnd - cursor)) src).1).length := by
      simp [hWlen]
    rw [sliceZero, hlen2, List.take_left]

/-- C2 amended, witnessed at a concrete refill call with one unconsumed byte
    and a two-byte chunk remaining in the source. -/
theorem refillBuffer_window_spec_witness :
    (1 : Nat) ≤ 3 ∧ 3 ≤ (("abcd").toList).length ∧
    RefillWindowSpec 1 3 (("abcd").toList) [("xy").toList] :=
  ⟨by decide, by decide,
   refillBuffer_window_spec 1 3 (("abcd").toList) [("xy").toList]
     (by decide) (by decide)⟩

/-- C7: when the scan loop dispatches to the entity-reference branch (at
    least five bytes in the window, not inside a tag header, not inside a
    comment or CDATA, an ampersand at the cursor, depth above zero), the
    handler recognizes exactly the three references lt, gt and amp, advancing
    the cursor by 4, 4 and 5 bytes respectively; any other ampersand advances
    the cursor by exactly 1 byte (the ampersand alone is consumed).  In every
    case textsize grows by exactly 1 and every other field, in particular
    loc, is unchanged. -/
theorem entity_reference_step (s : ScanState)
    (h5 : ¬(s.cursorEnd - s.cursor < 5))
    (hTag : s.inTag = false) (hCom : s.inXMLComment = false)
    (hCd : s.inCDATA = false)
    (hAmp : byteAt s.buffer s.cursor = '&')
    (hDepth : 0 < s.depth) :
    step s = .cont { s with textsize := s.textsize + 1,
                            cursor := s.cursor + entityAdvance s } := by
  have hlt : byteAt s.buffer s.cursor ≠ '<' := by
    rw [hAmp]
    decide
  have hnTag2 : ¬(s.inTag ∧ matchAt s.buffer s.cursor litXmlns ∧
      (byteAt s.buffer (s.cursor + 5) = ':' ∨ byteAt s.buffer (s.cursor + 5) = '=')) := by
    rintro ⟨ht, -, -⟩
    rw [hTag] at ht
    exact Bool.false_ne_true ht
  have hnTag : ¬(s.inTag : Prop) := by
    simp [hTag]
  have hnCom : ¬(s.inXMLComment ∨ (byteAt s.buffer (s.cursor + 1) = '!' ∧
      byteAt s.buffer s.cursor = '<' ∧ byteAt s.buffer (s.cursor + 2) = '-' ∧
      byteAt s.buffer (s.cursor + 3) = '-')) := by
    rintro (hc | ⟨-, hx, -, -⟩)
    · rw [hCom] at hc
      exact Bool.false_ne_true hc
    · exact hlt hx
  have hnCd : ¬(s.inCDATA ∨ (byteAt s.buffer (s.cursor + 1) = '!' ∧
      byteAt s.buffer s.cursor = '<' ∧ byteAt s.buffer (s.cursor + 2) = '[' ∧
      matchAt s.buffer (s.cursor + 3) litCDATAOpen)) := by
    rintro (hc | ⟨-, hx, -, -⟩)
    · rw [hCd] at hc
      exact Bool.false_ne_true hc
    · exact hlt hx
  have hnDecl : ¬(byteAt s.buffer (s.cursor + 1) = '?' ∧ byteAt s.buffer s.cursor = '<' ∧
      matchAt s.buffer s.cursor litXMLDeclOpen) := by
    rintro ⟨-, hx, -⟩
    exact hlt hx
  have hnPI : ¬(byteAt s.buffer (s.cursor + 1) = '?' ∧ byteAt s.buffer s.cursor = '<') :=
    fun h => hlt h.2
  have hnEnd : ¬(byteAt s.buffer (s.cursor + 1) = '/' ∧ byteAt s.buffer s.cursor = '<') :=
    fun h => hlt h.2
  have hnD0 : ¬(s.depth = 0) := by
    omega
  unfold step
  rw [if_neg h5, if_neg hnTag2, if_neg hnTag, if_neg hnCom, if_neg hnCd, if_neg hnDecl,
      if_neg hnPI, if_neg hnEnd, if_neg hlt, if_neg hnD0, if_pos hAmp]
  rfl

/-- C7 witnessed at a concrete state whose window starts with the reference
    lt: textsize grows by 1 and the cursor advances by 4. -/
theorem entity_reference_step_witness :
    entityAdvance entityProbe = 4 ∧
    step entityProbe = .cont { entityProbe with
                               textsize := entityProbe.textsize + 1,
                               cursor := entityProbe.cursor + entityAdvance entityProbe } :=
  ⟨by decide,
   entity_reference_step entityProbe (by decide) (by decide) (by decide) (by decide)
     (by decide) (by decide)⟩

/-- C10: every input stream shorter than five bytes, whatever its content,
    makes the program exit 0 with every measure 0 and totalBytes equal to the
    stream length: the bytes are shifted into the buffer by the first refill,
    the second refill hits end of file and discards them by setting cursor to
    cursorEnd, and the loop terminates without parsing anything. -/
theorem short_input_all_measures_zero (input : List Char) (capacity fuel : Nat)
    (hlen : input.length < 5) (hcap : 5 ≤ capacity) (hfuel : 2 ≤ fuel) :
    srcFactsMain capacity fuel [input] =
      some (.ok (zeroReport (input.length : Int))) := by
  obtain ⟨k, rfl⟩ : ∃ k, fuel = k + 2 := ⟨fuel - 2, by omega⟩
  have e1 : ∀ (n : Nat) (s : ScanState), runLoop (n + 1) s =
      (match step s with
       | .cont s1 => runLoop n s1
       | .brk s1 => some (.fin s1)
       | .error m => some (.fail m)) := fun n s => rfl
  cases input with
  | nil =>
    simp [srcFactsMain, runScan, e1, step, initState, handleRefill, refillBuffer,
          readSource, sliceBC, report, zeroReport]
  | cons a as =>
    simp only [List.length_cons] at hlen
    have hic : as.length + 1 ≤ capacity := by omega
    have e2 : ∀ (n : Nat) (s s1 : ScanState), step s = .cont s1 →
        runLoop (n + 1) s = runLoop n s1 := by
      intro n s s1 h
      rw [e1, h]
    have e3 : ∀ (n : Nat) (s s1 : ScanState), step s = .brk s1 →
        runLoop (n + 1) s = some (.fin s1) := by
      intro n s s1 h
      rw [e1, h]
    have hs0 : step (initState capacity [(a :: as)]) =
        .cont { initState capacity [(a :: as)] with
                cursor := 0, cursorEnd := as.length + 1,
                buffer := (a :: as) ++ (List.replicate capacity ' ').drop (as.length + 1),
                src := [], totalBytes := ((as.length : Int) + 1) } := by
      unfold step
      rw [if_pos (by simp [initState])]
      unfold handleRefill refillBuffer readSource
      simp [initState, sliceBC, hic]
      omega
    have htake : ((a :: as) ++ (List.replicate capacity ' ').drop (as.length + 1)).take
        (as.length + 1) = a :: as := by
      have h : (a :: as).length = as.length + 1 := by simp
      rw [← h, List.take_left]
    have hdrop : ((a :: as) ++ (List.replicate capacity ' ').drop (as.length + 1)).drop
        (as.length + 1) = (List.replicate capacity ' ').drop (as.length + 1) := by
      have h : (a :: as).length = as.length + 1 := by simp
      rw [← h, List.drop_left]
    have hlen1 : ((a :: as) ++ (List.replicate capacity ' ').drop (as.length + 1)).length
        = capacity := by
      simp
      omega
    have hs1 : step { initState capacity [(a :: as)] with
                cursor := 0, cursorEnd := as.length + 1,
                buffer := (a :: as) ++ (List.replicate capacity ' ').drop (as.length + 1),
                src := [], totalBytes := ((as.length : Int) + 1) } =
        .brk { initState capacity [(a :: as)] with
               cursor := capacity, cursorEnd := capacity,
               buffer := (a :: as) ++ (List.replicate capacity ' ').drop (as.length + 1),
               src := [], totalBytes := ((as.length : Int) + 1) } := by
      unfold step
      rw [if_pos (by simp [initState]; omega)]
      unfold handleRefill refillBuffer readSource
      simp [initState, sliceBC, htake, hdrop, hlen1]
      omega
    unfold srcFactsMain runScan
    rw [e2 (k + 1) _ _ hs0, e3 k _ _ hs1]
    simp [report, zeroReport, initState]


/-- C10 witnessed at the two-byte input ab with capacity 8 and fuel 4. -/
theorem short_input_all_measures_zero_witness :
    (("ab").toList).length < 5 ∧ 5 ≤ 8 ∧ 2 ≤ 4 ∧
    srcFactsMain 8 4 [("ab").toList] =
      some (.ok (zeroReport (((("ab").toList).length : Nat) : Int))) :=
  ⟨by decide, by decide, by decide,
   short_input_all_measures_zero (("ab").toList) 8 4 (by decide) (by decide) (by decide)⟩

/-- The forced tag refill keeps depth, unitCount and isArchive unchanged. -/
lemma tagFindEnd_fields (s : ScanState) (limit : Nat) (msg : String) (s1 : ScanState)
    (h : tagFindEnd s limit msg = .ok s1) :
    s1.depth = s.depth ∧ s1.unitCount = s.unitCount ∧ s1.isArchive = s.isArchive := by
  simp only [tagFindEnd] at h
  repeat' split at h
  all_goals first
    | (obtain rfl := Except.ok.inj h; exact ⟨rfl, rfl, rfl⟩)
    | simp at h

/-- The XML declaration refill keeps depth, unitCount, isArchive unchanged. -/
lemma declFindEnd_fields (s : ScanState) (s1 : ScanState) (t : Nat)
    (h : declFindEnd s = .ok (s1, t)) :
    s1.depth = s.depth ∧ s1.unitCount = s.unitCount ∧ s1.isArchive = s.isArchive := by
  simp only [declFindEnd] at h
  repeat' split at h
  all_goals first
    | (have h2 := Except.ok.inj h
       injection h2 with h3 h4
       obtain rfl := h3
       exact ⟨rfl, rfl, rfl⟩)
    | simp at h

/-- The processing-instruction refill keeps the same fields unchanged. -/
lemma piFindEnd_fields (s : ScanState) (s1 : ScanState) (t : Nat)
    (h : piFindEnd s = .ok (s1, t)) :
    s1.depth = s.depth ∧ s1.unitCount = s.unitCount ∧ s1.isArchive = s.isArchive := by
  simp only [piFindEnd] at h
  repeat' split at h
  all_goals first
    | (have h2 := Except.ok.inj h
       injection h2 with h3 h4
       obtain rfl := h3
       exact ⟨rfl, rfl, rfl⟩)
    | simp at h

lemma handleRefill_fields (s s1 : ScanState) (h : stepState (handleRefill s) = some s1) :
    s1.depth = s.depth ∧ s1.unitCount = s.unitCount ∧ s1.isArchive = s.isArchive := by
  simp only [handleRefill] at h
  repeat' split at h
  all_goals simp only [stepState] at h
  all_goals first
    | (obtain rfl := Option.some.inj h; exact ⟨rfl, rfl, rfl⟩)
    | simp at h

lemma handleNamespace_fields (s s1 : ScanState)
    (h : stepState (handleNamespace s) = some s1) :
    (s1.depth = s.depth ∨ s1.depth = s.depth + 1) ∧
    s1.unitCount = s.unitCount ∧ s1.isArchive = s.isArchive := by
  simp only [handleNamespace] at h
  repeat' split at h
  all_goals simp only [stepState] at h
  all_goals first
    | (obtain rfl := Option.some.inj h; exact ⟨Or.inl rfl, rfl, rfl⟩)
    | (obtain rfl := Option.some.inj h; exact ⟨Or.inr rfl, rfl, rfl⟩)
    | simp at h

lemma handleAttribute_fields (s s1 : ScanState)
    (h : stepState (handleAttribute s) = some s1) :
    (s1.depth = s.depth ∨ s1.depth = s.depth + 1) ∧
    s1.unitCount = s.unitCount ∧ s1.isArchive = s.isArchive := by
  simp only [handleAttribute] at h
  split at h
  · simp [stepState] at h
  · rename_i a b c heq
    repeat' split at h
    all_goals simp only [stepState] at h
    all_goals first
      | (obtain rfl := Option.some.inj h; exact ⟨Or.inl rfl, rfl, rfl⟩)
      | (obtain rfl := Option.some.inj h; exact ⟨Or.inr rfl, rfl, rfl⟩)
      | simp at h

/-- The start-tag counter update moves only the six srcML counters; depth is
    untouched, unitCount grows by one exactly on a unit tag, and isArchive is
    set exactly when a unit tag is counted at depth 1. -/
lemma countLocalName_fields (s : ScanState) (l : List Char) :
    (countLocalName s l).depth = s.depth ∧
    ((countLocalName s l).unitCount = s.unitCount ∨
      (countLocalName s l).unitCount = s.unitCount + 1) ∧
    ((countLocalName s l).isArchive = true ↔
      (s.isArchive = true ∨ ((countLocalName s l).unitCount ≠ s.unitCount ∧ s.depth = 1))) := by
  have hne : s.unitCount + 1 ≠ s.unitCount := by omega
  unfold countLocalName
  split_ifs <;>
    first
      | exact ⟨rfl, Or.inl rfl, by simp⟩
      | (refine ⟨rfl, Or.inr rfl, ?_⟩
         simp [hne])

lemma handleComment_fields (s s1 : ScanState)
    (h : stepState (handleComment s) = some s1) :
    s1.depth = s.depth ∧ s1.unitCount = s.unitCount ∧ s1.isArchive = s.isArchive := by
  simp only [handleComment] at h
  repeat' split at h
  all_goals simp only [stepState] at h
  all_goals first
    | (obtain rfl := Option.some.inj h; exact ⟨rfl, rfl, rfl⟩)
    | simp at h

lemma handleCDATA_fields (s s1 : ScanState)
    (h : stepState (handleCDATA s) = some s1) :
    s1.depth = s.depth ∧ s1.unitCount = s.unitCount ∧ s1.isArchive = s.isArchive := by
  simp only [handleCDATA] at h
  repeat' split at h
  all_goals simp only [stepState] at h
  all_goals first
    | (obtain rfl := Option.some.inj h; exact ⟨rfl, rfl, rfl⟩)
    | simp at h

lemma handleXMLDecl_fields (s s1 : ScanState)
    (h : stepState (handleXMLDecl s) = some s1) :
    s1.depth = s.depth ∧ s1.unitCount = s.unitCount ∧ s1.isArchive = s.isArchive := by
  simp only [handleXMLDecl] at h
  split at h
  · simp [stepState] at h
  · rename_i s2 t heq
    obtain ⟨hd, hu, ha⟩ := declFindEnd_fields s s2 t heq
    repeat' split at h
    all_goals simp only [stepState] at h
    all_goals first
      | (obtain rfl := Option.some.inj h; exact ⟨by simp [hd], by simp [hu], by simp [ha]⟩)
      | simp at h

lemma handlePI_fields (s s1 : ScanState)
    (h : stepState (handlePI s) = some s1) :
    s1.depth = s.depth ∧ s1.unitCount = s.unitCount ∧ s1.isArchive = s.isArchive := by
  simp only [handlePI] at h
  split at h
  · simp [stepState] at h
  · rename_i s2 t heq
    obtain ⟨hd, hu, ha⟩ := piFindEnd_fields s s2 t heq
    repeat' split at h
    all_goals simp only [stepState] at h
    all_goals first
      | (obtain rfl := Option.some.inj h; exact ⟨by simp [hd], by simp [hu], by simp [ha]⟩)
      | simp at h

lemma handleEndTag_fields (s s1 : ScanState)
    (h : stepState (handleEndTag s) = some s1) :
    s1.depth = s.depth - 1 ∧ s1.unitCount = s.unitCount ∧ s1.isArchive = s.isArchive := by
  simp only [handleEndTag] at h
  split at h
  · simp [stepState] at h
  · rename_i s2 heq
    obtain ⟨hd, hu, ha⟩ := tagFindEnd_fields s 100 msgIncompleteEndTag s2 heq
    split at h
    · simp [stepState] at h
    · rename_i cp ne2 qn heq2
      simp only [stepState] at h
      obtain rfl := Option.some.inj h
      exact ⟨by simp [hd], by simp [hu], by simp [ha]⟩

lemma handleStartTag_fields (s s1 : ScanState)
    (h : stepState (handleStartTag s) = some s1) :
    (s1.depth = s.depth ∨ s1.depth = s.depth + 1) ∧
    (s1.unitCount = s.unitCount ∨ s1.unitCount = s.unitCount + 1) ∧
    (s1.isArchive = true ↔ (s.isArchive = true ∨ (s1.unitCount ≠ s.unitCount ∧ s.depth = 1))) := by
  simp only [handleStartTag] at h
  split at h
  · simp [stepState] at h
  · rename_i s2 heq
    obtain ⟨hd, hu, ha⟩ := tagFindEnd_fields s 200 msgIncompleteStartTag s2 heq
    split at h
    · simp [stepState] at h
    · rename_i cp ne2 qn heq2
      obtain ⟨hcd, hcu, hca⟩ :=
        countLocalName_fields s2 (qn.drop (if cp ≠ 0 then cp + 1 else 0))
      repeat' split at h
      all_goals simp only [stepState] at h
      all_goals first
        | (obtain rfl := Option.some.inj h
           refine ⟨?_, ?_, ?_⟩ <;> simp_all)
        | simp at h

lemma handleDepthZero_fields (s s1 : ScanState)
    (h : stepState (handleDepthZero s) = some s1) :
    s1.depth = s.depth ∧ s1.unitCount = s.unitCount ∧ s1.isArchive = s.isArchive := by
  simp only [handleDepthZero, stepState] at h
  obtain rfl := Option.some.inj h
  exact ⟨rfl, rfl, rfl⟩

lemma handleEntity_fields (s s1 : ScanState)
    (h : stepState (handleEntity s) = some s1) :
    s1.depth = s.depth ∧ s1.unitCount = s.unitCount ∧ s1.isArchive = s.isArchive := by
  simp only [handleEntity, stepState] at h
  obtain rfl := Option.some.inj h
  exact ⟨rfl, rfl, rfl⟩

lemma handleCharacters_fields (s s1 : ScanState)
    (h : stepState (handleCharacters s) = some s1) :
    s1.depth = s.depth ∧ s1.unitCount = s.unitCount ∧ s1.isArchive = s.isArchive := by
  simp only [handleCharacters, stepState] at h
  obtain rfl := Option.some.inj h
  exact ⟨rfl, rfl, rfl⟩

/-- Uniform consequence used by the per-iteration theorems below. -/
lemma unchanged_effects (s s1 : ScanState) (hd : s1.depth = s.depth ∨ s1.depth = s.depth + 1)
    (hu : s1.unitCount = s.unitCount) (ha : s1.isArchive = s.isArchive) :
    (s.depth - 1 ≤ s1.depth ∧ s1.depth ≤ s.depth + 1) ∧
    (s1.unitCount = s.unitCount ∨ s1.unitCount = s.unitCount + 1) ∧
    (s1.isArchive = true ↔ (s.isArchive = true ∨ (s1.unitCount ≠ s.unitCount ∧ s.depth = 1))) := by
  rw [hu, ha]
  refine ⟨?_, Or.inl rfl, by simp⟩
  obtain hd | hd := hd <;> rw [hd] <;> omega

/-- Per-iteration characterisation of depth, unitCount and isArchive across
    the whole branch dispatch of the scan loop. -/
lemma step_fields (s s1 : ScanState) (h : stepState (step s) = some s1) :
    (s.depth - 1 ≤ s1.depth ∧ s1.depth ≤ s.depth + 1) ∧
    (s1.unitCount = s.unitCount ∨ s1.unitCount = s.unitCount + 1) ∧
    (s1.isArchive = true ↔ (s.isArchive = true ∨ (s1.unitCount ≠ s.unitCount ∧ s.depth = 1))) := by
  unfold step at h
  by_cases c1 : s.cursorEnd - s.cursor < 5
  · rw [if_pos c1] at h
    obtain ⟨hd, hu, ha⟩ := handleRefill_fields s s1 h
    exact unchanged_effects s s1 (Or.inl hd) hu ha
  rw [if_neg c1] at h
  by_cases c2 : s.inTag ∧ matchAt s.buffer s.cursor litXmlns ∧
      (byteAt s.buffer (s.cursor + 5) = ':' ∨ byteAt s.buffer (s.cursor + 5) = '=')
  · rw [if_pos c2] at h
    obtain ⟨hd, hu, ha⟩ := handleNamespace_fields s s1 h
    exact unchanged_effects s s1 hd hu ha
  rw [if_neg c2] at h
  by_cases c3 : (s.inTag : Prop)
  · rw [if_pos c3] at h
    obtain ⟨hd, hu, ha⟩ := handleAttribute_fields s s1 h
    exact unchanged_effects s s1 hd hu ha
  rw [if_neg c3] at h
  by_cases c4 : s.inXMLComment ∨ (byteAt s.buffer (s.cursor + 1) = '!' ∧
      byteAt s.buffer s.cursor = '<' ∧ byteAt s.buffer (s.cursor + 2) = '-' ∧
      byteAt s.buffer (s.cursor + 3) = '-')
  · rw [if_pos c4] at h
    obtain ⟨hd, hu, ha⟩ := handleComment_fields s s1 h
    exact unchanged_effects s s1 (Or.inl hd) hu ha
  rw [if_neg c4] at h
  by_cases c5 : s.inCDATA ∨ (byteAt s.buffer (s.cursor + 1) = '!' ∧
      byteAt s.buffer s.cursor = '<' ∧ byteAt s.buffer (s.cursor + 2) = '[' ∧
      matchAt s.buffer (s.cursor + 3) litCDATAOpen)
  · rw [if_pos c5] at h
    obtain ⟨hd, hu, ha⟩ := handleCDATA_fields s s1 h
    exact unchanged_effects s s1 (Or.inl hd) hu ha
  rw [if_neg c5] at h
  by_cases c6 : byteAt s.buffer (s.cursor + 1) = '?' ∧ byteAt s.buffer s.cursor = '<' ∧
      matchAt s.buffer s.cursor litXMLDeclOpen
  · rw [if_pos c6] at h
    obtain ⟨hd, hu, ha⟩ := handleXMLDecl_fields s s1 h
    exact unchanged_effects s s1 (Or.inl hd) hu ha
  rw [if_neg c6] at h
  by_cases c7 : byteAt s.buffer (s.cursor + 1) = '?' ∧ byteAt s.buffer s.cursor = '<'
  · rw [if_pos c7] at h
    obtain ⟨hd, hu, ha⟩ := handlePI_fields s s1 h
    exact unchanged_effects s s1 (Or.inl hd) hu ha
  rw [if_neg c7] at h
  by_cases c8 : byteAt s.buffer (s.cursor + 1) = '/' ∧ byteAt s.buffer s.cursor = '<'
  · rw [if_pos c8] at h
    obtain ⟨hd, hu, ha⟩ := handleEndTag_fields s s1 h
    rw [hu, ha]
    refine ⟨by omega, Or.inl rfl, by simp⟩
  rw [if_neg c8] at h
  by_cases c9 : byteAt s.buffer s.cursor = '<'
  · rw [if_pos c9] at h
    obtain ⟨hd, hu, ha⟩ := handleStartTag_fields s s1 h
    refine ⟨?_, hu, ha⟩
    obtain hd | hd := hd <;> rw [hd] <;> omega
  rw [if_neg c9] at h
  by_cases c10 : s.depth = 0
  · rw [if_pos c10] at h
    obtain ⟨hd, hu, ha⟩ := handleDepthZero_fields s s1 h
    exact unchanged_effects s s1 (Or.inl hd) hu ha
  rw [if_neg c10] at h
  by_cases c11 : byteAt s.buffer s.cursor = '&'
  · rw [if_pos c11] at h
    obtain ⟨hd, hu, ha⟩ := handleEntity_fields s s1 h
    exact unchanged_effects s s1 (Or.inl hd) hu ha
  rw [if_neg c11] at h
  obtain ⟨hd, hu, ha⟩ := handleCharacters_fields s s1 h
  exact unchanged_effects s s1 (Or.inl hd) hu ha

/-- C4 amended: each scan iteration that does not exit with a parser error
    changes depth by at most one in either direction; the decrement happens
    only in the end-tag branch, which performs no non-negativity check, so an
    end tag handled at depth 0 yields depth -1 without error. -/
theorem depth_changes_by_at_most_one (s s1 : ScanState)
    (h : stepState (step s) = some s1) :
    s.depth - 1 ≤ s1.depth ∧ s1.depth ≤ s.depth + 1 :=
  (step_fields s s1 h).1

/-- C5 amended: across every branch of the scan loop, isArchive is true after
    an iteration exactly when it was already true or the iteration counted a
    unit start tag (self-closing or not, whatever the outermost element) at
    depth 1; and the reported files value is unitCount less one exactly when
    isArchive is set. -/
theorem unit_archive_characterisation :
    (∀ s s1, stepState (step s) = some s1 →
      (s1.isArchive = true ↔ (s.isArchive = true ∨ (s1.unitCount ≠ s.unitCount ∧ s.depth = 1)))) ∧
    (∀ s, (report s).files = s.unitCount - (if s.isArchive then 1 else 0)) :=
  ⟨fun s s1 h => (step_fields s s1 h).2.2, fun _ => rfl⟩

/-- C4 amended, witnessed at a concrete whitespace-skipping iteration. -/
theorem depth_changes_by_at_most_one_witness :
    stepState (step wsProbe) = some wsProbeAfter ∧
    (wsProbe.depth - 1 ≤ wsProbeAfter.depth ∧ wsProbeAfter.depth ≤ wsProbe.depth + 1) :=
  ⟨by decide, depth_changes_by_at_most_one wsProbe wsProbeAfter (by decide)⟩

/-- C5 amended, witnessed at a concrete iteration and a concrete report. -/
theorem unit_archive_characterisation_witness :
    (stepState (step wsProbe) = some wsProbeAfter ∧
     (wsProbeAfter.isArchive = true ↔
       (wsProbe.isArchive = true ∨
        (wsProbeAfter.unitCount ≠ wsProbe.unitCount ∧ wsProbe.depth = 1)))) ∧
    (report wsProbe).files = wsProbe.unitCount - (if wsProbe.isArchive then 1 else 0) :=
  ⟨⟨by decide, unit_archive_characterisation.1 wsProbe wsProbeAfter (by decide)⟩,
   unit_archive_characterisation.2 wsProbe⟩

/-- C8 amended: whenever the attribute branch completes without a parser
    error, the stored document URL afterwards is the value of the attribute
    just parsed when its local name is url (overwriting any earlier capture:
    the last url attribute wins), and the previous URL otherwise. -/
theorem url_last_attribute_wins (s s1 : ScanState)
    (h : stepState (handleAttribute s) = some s1) :
    s1.url = (match attrParse s with
              | .ok nv => if nv.1 = litUrl then nv.2.1 else s.url
              | .error _ => s.url) := by
  simp only [handleAttribute] at h
  split at h
  · simp [stepState] at h
  · rename_i a b c heq
    rw [heq]
    repeat' split at h
    all_goals simp only [stepState] at h
    all_goals first
      | (obtain rfl := Option.some.inj h; simp_all)
      | simp at h

/-- C8 amended, witnessed at a concrete attribute parse that overwrites a
    previously captured URL. -/
theorem url_last_attribute_wins_witness :
    stepState (handleAttribute urlProbe) = some urlProbeAfter ∧
    urlProbeAfter.url = (match attrParse urlProbe with
                         | .ok nv => if nv.1 = litUrl then nv.2.1 else urlProbe.url
                         | .error _ => urlProbe.url) :=
  ⟨by decide, url_last_attribute_wins urlProbe urlProbeAfter (by decide)⟩
